import Mathlib

/-!
Verification development for the robust-finger-tracking training pipeline.

The Python sources are embedded shallowly:

* marker positions (`float32` 3-vectors) are idealized as exact rationals
  (`Fin 3 → ℚ`), and 3×3 matrices as `Matrix (Fin 3) (Fin 3) ℚ`;
* `np.linalg.svd` is an external LAPACK routine, modelled as an oracle
  parameter `svd : Mat3 → Option (Mat3 × Vec3 × Mat3)`; `none` models the
  backend raising `LinAlgError` ("SVD did not converge"), `some (U, S, V)`
  models a successful return, where — following numpy's convention — `V`
  is already the transposed factor (`H = U ⬝ diagonal S ⬝ V`);
* Python exceptions are modelled with `Option`/`Except`, and in-place
  mutation of numpy arrays with explicit store passing.
-/

set_option autoImplicit false

namespace FingerTracking

/-- A 3D point / row vector (one marker position), idealizing `float32`
coordinates as rationals. -/
abbrev Vec3 : Type := Fin 3 → ℚ

/-- A 3×3 real matrix, as produced and consumed by `dataset.rigid_motion`. -/
abbrev Mat3 : Type := Matrix (Fin 3) (Fin 3) ℚ

/-- A MarkerSet: an ordered list of 3D points (rows of a numpy `(N, 3)`
array). -/
abbrev MarkerSet : Type := List Vec3

/-- Oracle for `np.linalg.svd` on 3×3 matrices.  `some (U, S, V)` models a
successful decomposition `H = U ⬝ diagonal S ⬝ V` (numpy returns the third
factor already transposed); `none` models `LinAlgError`. -/
abbrev Svd : Type := Mat3 → Option (Mat3 × Vec3 × Mat3)

/-- Componentwise mean of a list of points: `np.mean(X, axis=0)`.
(Division by zero for the empty list yields `0`, mirroring that no claim
exercises `np.mean` on an empty array.) -/
def npMean (X : MarkerSet) : Vec3 :=
  fun j => (X.map (fun p => p j)).sum / (X.length : ℚ)

/-- Cross-covariance `H = (Y - Y_mean).T.dot(X - X_mean)` of
`dataset.rigid_motion`: entry `(j, k)` sums `(Yᵢ - Ȳ)ⱼ * (Xᵢ - X̄)ₖ` over
paired rows. -/
def crossCov (X Y : MarkerSet) : Mat3 :=
  Matrix.of fun j k =>
    ((Y.zip X).map
      (fun q => (q.1 j - npMean Y j) * (q.2 k - npMean X k))).sum

/-- Row `i` of a matrix negated: the effect of `V[2] = -V[2]` for `i = 2`. -/
def negRow (M : Mat3) (i : Fin 3) : Mat3 :=
  Matrix.updateRow M i (-(M i))

/-- Shallow embedding of `dataset.rigid_motion`:

    def rigid_motion(X, Y):
        X_mean = np.mean(X, axis=0)
        Y_mean = np.mean(Y, axis=0)
        H = (Y - Y_mean).T.dot(X - X_mean)
        U, S, V = np.linalg.svd(H)
        R = V.T.dot(U.T)
        if np.linalg.det(R) < 0:
            V[2] = -V[2]
            R = V.T.dot(U.T)
        offset = -X_mean.dot(R) + Y_mean
        return R, offset

The function body contains no degeneracy check and no `raise`; the only
failure path is `np.linalg.svd` itself, here the oracle returning `none`. -/
def rigid_motion (svd : Svd) (X Y : MarkerSet) : Option (Mat3 × Vec3) :=
  let X_mean := npMean X
  let Y_mean := npMean Y
  let H := crossCov X Y
  (svd H).map (fun USV =>
    let U := USV.1
    let V := USV.2.2
    let R := V.transpose * U.transpose
    let R' := if R.det < 0 then (negRow V 2).transpose * U.transpose else R
    (R', -(Matrix.vecMul X_mean R') + Y_mean))

/-- Applying a computed rigid motion to one point:
`positions[i].dot(R) + offset` acts on each row by `p ↦ p ᵥ* R + t`. -/
def applyRt (R : Mat3) (t : Vec3) (p : Vec3) : Vec3 :=
  Matrix.vecMul p R + t

/-- Numpy fancy indexing `l[idxs]`: pick the rows listed in `idxs`.
(All call sites keep the indices in range, where `getD`'s default row is
never read.) -/
def select (l : MarkerSet) (idxs : List Nat) : MarkerSet :=
  idxs.map (fun i => l.getD i (fun _ => 0))

/-- One run of the loop body of `train_joint_model.normalize_positions`,
embedded exactly as written:

    for i in range(positions_mocap.shape[0]):
        X = positions_mocap[i, alignment_points_markers]
        try:
            R, offset = rigid_motion(X, Y)
        except:
            error_count += 1
        positions_mocap[i] = positions_mocap[i].dot(R) + offset

The `rt0` argument models the Python variables `R, offset`, which are
unbound before the first successful `rigid_motion` call (`none`) and keep
their previous values after a caught exception.  The transform line sits
OUTSIDE the `try` block in the source, so it executes even after a caught
failure; if `R` is still unbound it raises `NameError`, which nothing
catches.  The result is `(array contents when the loop ends, error_count,
whether a NameError aborted the run)`; on abort the remaining frames are
returned untouched, as the mutation stops there. -/
def normalizeGo (svd : Svd) (Y : MarkerSet) (align : List Nat) :
    List MarkerSet → Option (Mat3 × Vec3) → Nat → List MarkerSet × Nat × Bool
  | [], _, errs => ([], errs, false)
  | f :: rest, rt0, errs =>
    let step : Option (Mat3 × Vec3) × Nat :=
      match rigid_motion svd (select f align) Y with
      | some rt => (some rt, errs)
      | none => (rt0, errs + 1)
    match step.1 with
    | none => (f :: rest, step.2, true)
    | some Rt =>
      let res := normalizeGo svd Y align rest (some Rt) step.2
      (f.map (applyRt Rt.1 Rt.2) :: res.1, res.2.1, res.2.2)

/-- Shallow embedding of `train_joint_model.normalize_positions` acting on
the contents of the `positions_mocap` array: `Y = hand[alignment_points_markers]`
is computed once, then the per-frame loop runs with `R, offset` initially
unbound and `error_count = 0`. -/
def normalize_positions (svd : Svd) (hand : MarkerSet) (align : List Nat)
    (frames : List MarkerSet) : List MarkerSet × Nat × Bool :=
  normalizeGo svd (select hand align) align frames none 0

/-- Store-passing view of `normalize_positions` for its in-place effect: the
caller's numpy arrays live in a store (a list of array contents) and
`positions_mocap` is the reference `r` into it.  The Python loop mutates
the argument array element by element and `return positions_mocap` returns
the very same reference; the net effect on the store — including the
partially transformed state a `NameError` abort leaves behind — is to
overwrite cell `r` with the loop's final contents.  A function returning a
copy would instead append a fresh cell and return its reference.  The
second component is the function's outcome: `Except.error ()` models the
uncaught `NameError` propagating, `Except.ok r` a normal return of the
argument reference. -/
def normalize_positions_ref (svd : Svd) (hand : MarkerSet) (align : List Nat)
    (r : Nat) (store : List (List MarkerSet)) :
    List (List MarkerSet) × Except Unit Nat :=
  let res := normalize_positions svd hand align (store.getD r [])
  (store.set r res.1, if res.2.2 then Except.error () else Except.ok r)

/-- Elementwise action of the angle-correction lines of `dataset.pre_process`:

    orientations_hand[orientations_hand > 180] = orientations_hand[orientations_hand > 180] - 360
    orientations_hand = orientations_hand / 180
-/
def pre_process_angle (v : ℚ) : ℚ :=
  (if v > 180 then v - 360 else v) / 180

/-- Row-major flattening of an `(N, 3)` numpy array, as performed by
`.flatten()` on a marker matrix: marker-major, then x, y, z. -/
def flattenMarkers (m : MarkerSet) : List ℚ :=
  (m.map (fun p => [p 0, p 1, p 2])).flatten

/-- Shallow embedding of `train_joint_model.extract_input_features`:
`mocap_sample.flatten()`, e.g. a 9×3 matrix becomes a vector of length 27. -/
def extract_input_features (mocap_sample : MarkerSet) : List ℚ :=
  flattenMarkers mocap_sample

/-- Inverse reshape `output.reshape(-1, 3)` as used by
`dataset.extract_columns`: regroup a flat vector into rows of three
coordinates. -/
def unflattenMarkers : List ℚ → MarkerSet
  | x :: y :: z :: rest => ![x, y, z] :: unflattenMarkers rest
  | _ => []

/-- Pointwise form of the fancy-indexed assignment `x[occluded] = 0` of
`train_marker_model.extract_features`: row `i` of `y` is replaced by the
zero row exactly when `i` is an occluded index.  (`base` carries the row
offset while recursing.) -/
def zeroOccludedGo (occl : List Nat) : Nat → List Vec3 → List Vec3
  | _, [] => []
  | i, p :: rest =>
    (if occl.contains i then (fun _ => 0) else p) :: zeroOccludedGo occl (i + 1) rest

/-- `x = y.copy(); x[occluded] = 0` for a list of rows. -/
def zeroOccluded (occl : List Nat) (y : List Vec3) : List Vec3 :=
  zeroOccludedGo occl 0 y

/-- The sorted visible-index list `available` of
`train_marker_model.extract_features`: `sorted(set(range(n)) - set(occlusions))`. -/
def availableIdxs (n : Nat) (occl : List Nat) : List Nat :=
  (List.range n).filter (fun i => !(occl.contains i))

/-- The sorted occluded-index list `occluded` of
`train_marker_model.extract_features`: `sorted(set(occlusions))` for
in-range occlusion indices. -/
def occludedIdxs (n : Nat) (occl : List Nat) : List Nat :=
  (List.range n).filter (fun i => occl.contains i)

/-- Shallow embedding of `train_marker_model.extract_features`:

    occluded = set(occlusions)
    available = set(np.arange(mocap_sample.shape[0])) - occluded
    available, occluded = list(sorted(available)), list(sorted(occluded))
    R, offset = rigid_motion(mocap_sample[available], hand[available])
    y = mocap_sample.dot(R) + offset
    x = y.copy()
    x[occluded] = 0
    return x.flatten(), y.flatten()

`none` models the only failure path, a raising `np.linalg.svd` call inside
`rigid_motion` propagating out. -/
def extract_features (svd : Svd) (hand : MarkerSet) (mocap_sample : MarkerSet)
    (occlusions : List Nat) : Option (List ℚ × List ℚ) :=
  let available := availableIdxs mocap_sample.length occlusions
  (rigid_motion svd (select mocap_sample available) (select hand available)).map
    (fun Rt =>
      let y := mocap_sample.map (applyRt Rt.1 Rt.2)
      (flattenMarkers (zeroOccluded occlusions y), flattenMarkers y))

/-- Cursor state of `train_marker_model.generate_minibatch`: the `counter`
into the current shuffled permutation `indices`, plus how many
permutations have been drawn so far (used to index the randomness
oracle). -/
structure GenState where
  counter : Nat
  indices : List Nat
  resets : Nat
deriving DecidableEq

/-- One index selection of `generate_minibatch`, with the stream of random
permutations supplied by the oracle `perms`:

    if counter == X.shape[0]:
        indices = np.random.permutation(X.shape[0])
        counter = 0
    idx = indices[counter]
    counter += 1
-/
def selectNext (n : Nat) (perms : Nat → List Nat) (s : GenState) : Nat × GenState :=
  let s' := if s.counter = n then GenState.mk 0 (perms s.resets) (s.resets + 1) else s
  (s'.indices.getD s'.counter 0, GenState.mk (s'.counter + 1) s'.indices s'.resets)

/-- Running `m` consecutive index selections: the inner
`for i in range(batch_size)` loop of `generate_minibatch` performs exactly
`batch_size` of these, whatever the cursor state — a batch is never
truncated at a reshuffle boundary. -/
def selectRun (n : Nat) (perms : Nat → List Nat) : Nat → GenState → List Nat × GenState
  | 0, s => ([], s)
  | m + 1, s =>
    let p := selectNext n perms s
    let q := selectRun n perms m p.2
    (p.1 :: q.1, q.2)

/-- The sample indices one minibatch of `generate_minibatch` consumes,
together with the cursor state it leaves behind.  The occlusion drawing and
`extract_features` call per selected index are modelled separately
(`extract_features`). -/
def generate_minibatch_idxs (n : Nat) (perms : Nat → List Nat) (batch_size : Nat)
    (s : GenState) : List Nat × GenState :=
  selectRun n perms batch_size s

/-- A weight tensor as handed to `exporter.write_tensor`: its numpy shape
and its row-major flattened data.  The element type `α` stands for
`float32` values, whose bit patterns the codec copies verbatim. -/
structure Tensor (α : Type) where
  shape : List Nat
  data : List α
deriving DecidableEq

/-- One 4-byte record of the binary file: an `int32` or a `float32`.  The
byte stream is this word list laid out contiguously in native byte order —
no padding exists between fields. -/
inductive FileWord (α : Type) where
  | i : Int → FileWord α
  | f : α → FileWord α
deriving DecidableEq

/-- The enumerated layer-kind table `exporter.LAYER_TYPES`. -/
def LAYER_TYPES : List (String × Int) :=
  [("Dense", 0), ("SimpleRNN", 1), ("LSTM", 2)]

/-- The enumerated activation table `exporter.ACTIVATION_TYPES`. -/
def ACTIVATION_TYPES : List (String × Int) :=
  [("relu", 0), ("linear", 1), ("sigmoid", 2), ("tanh", 3), ("hard_sigmoid", 4)]

/-- A Keras layer as seen by `exporter.save_model`: either a concrete layer
(its class name, its activation function's name, its weight tensors in
`get_weights()` order), or a wrapper object with a class name and an inner
layer (`layer.layer`). -/
inductive KLayer (α : Type) where
  | base : String → String → List (Tensor α) → KLayer α
  | wrapper : String → KLayer α → KLayer α
deriving DecidableEq

/-- `type(layer).__name__`. -/
def KLayer.kindName {α : Type} : KLayer α → String
  | .base kind _ _ => kind
  | .wrapper kind _ => kind

/-- `layer.activation.__name__`.  Only read after unwrapping and only for
layer kinds listed in `LAYER_TYPES`, which are all concrete layers; the
`wrapper` fallback is never reached on those paths. -/
def KLayer.activationName {α : Type} : KLayer α → String
  | .base _ act _ => act
  | .wrapper _ _ => ""

/-- `layer.get_weights()`, under the same reachability proviso as
`KLayer.activationName`. -/
def KLayer.weights {α : Type} : KLayer α → List (Tensor α)
  | .base _ _ w => w
  | .wrapper _ _ => []

/-- The unwrap step of `save_model`, performed identically in both of its
loops:

    if type(layer).__name__ == 'TimeDistributed' or type(layer).__name__ == 'Bidirectional':
        layer = layer.layer # Unwrap
-/
def unwrapLayer {α : Type} : KLayer α → KLayer α
  | .wrapper kind inner =>
      if kind = "TimeDistributed" ∨ kind = "Bidirectional" then inner
      else .wrapper kind inner
  | l => l

/-- Shallow embedding of `exporter.write_tensor`:

    np.array(tensor.shape, dtype='int32').tofile(file)
    tensor.tofile(file)

The shape dimensions are written directly as `int32` values — no count of
dimensions precedes them — followed by the row-major data. -/
def write_tensor {α : Type} (t : Tensor α) : List (FileWord α) :=
  t.shape.map (fun d => FileWord.i d) ++ t.data.map FileWord.f

/-- First loop of `exporter.save_model`: count the exportable layers and
validate their activations.  It runs to completion — or raises — before
`open(filename, 'wb')`, so an `Except.error` here means the destination
file was never created.  Mirrors:

    for layer in model.layers:
        ... unwrap ...
        if type(layer).__name__ in LAYER_TYPES:
                num_layers += 1
                if layer.activation.__name__ not in ACTIVATION_TYPES:
                    raise Exception('Unsupported activation function: ' + layer.activation.__name__)
-/
def checkPass {α : Type} : List (KLayer α) → Nat → Except String Nat
  | [], n => Except.ok n
  | l :: rest, n =>
    let u := unwrapLayer l
    if (LAYER_TYPES.lookup u.kindName).isSome then
      if (ACTIVATION_TYPES.lookup u.activationName).isSome then
        checkPass rest (n + 1)
      else Except.error ("Unsupported activation function: " ++ u.activationName)
    else checkPass rest n

/-- Second loop of `exporter.save_model`, writing one block per layer whose
unwrapped kind is in `LAYER_TYPES` — any other layer is passed over without
writing anything:

    if layer_name in LAYER_TYPES:
        write_integer(file, LAYER_TYPES[layer_name])
        write_integer(file, ACTIVATION_TYPES[layer.activation.__name__])
        weights = layer.get_weights()
        for i in range(len(weights)):
            write_tensor(file, weights[i])

The `Except.error` branch models the `KeyError` a Python dict lookup would
raise; it is unreachable whenever `checkPass` succeeded on the same list. -/
def writeLayers {α : Type} : List (KLayer α) → Except String (List (FileWord α))
  | [] => Except.ok []
  | l :: rest =>
    let u := unwrapLayer l
    match LAYER_TYPES.lookup u.kindName with
    | none => writeLayers rest
    | some code =>
      match ACTIVATION_TYPES.lookup u.activationName with
      | none => Except.error "KeyError"
      | some acode =>
        (writeLayers rest).map (fun ws =>
          FileWord.i code :: FileWord.i acode ::
            ((u.weights.map write_tensor).flatten ++ ws))

/-- Shallow embedding of `exporter.save_model`: run the counting/validation
loop; only if it succeeds is the file opened and written — the `int32`
layer count first, then the per-layer blocks.  An error therefore produces
no file at all. -/
def save_model {α : Type} (layers : List (KLayer α)) : Except String (List (FileWord α)) :=
  match checkPass layers 0 with
  | Except.error e => Except.error e
  | Except.ok n => (writeLayers layers).map (fun ws => FileWord.i n :: ws)

/-- Modelled from the spec: the per-tensor record of the layout table in
section 4.5, which claims an `int32 ndims` field before the shape —
`int32 ndims; int32[ndims] shape; float32[product(shape)] data`.  This
definition exists to compare the spec's claimed layout against the one
`write_tensor` actually produces. -/
def spec_write_tensor {α : Type} (t : Tensor α) : List (FileWord α) :=
  FileWord.i t.shape.length :: (t.shape.map (fun d => FileWord.i d) ++ t.data.map FileWord.f)

/-- Modelled from the spec: the per-layer blocks of the section 4.5 layout,
i.e. `writeLayers` with every tensor carrying its `ndims` field. -/
def spec_layout_go {α : Type} : List (KLayer α) → Except String (List (FileWord α))
  | [] => Except.ok []
  | l :: rest =>
    let u := unwrapLayer l
    match LAYER_TYPES.lookup u.kindName with
    | none => spec_layout_go rest
    | some code =>
      match ACTIVATION_TYPES.lookup u.activationName with
      | none => Except.error "KeyError"
      | some acode =>
        (spec_layout_go rest).map (fun ws =>
          FileWord.i code :: FileWord.i acode ::
            ((u.weights.map spec_write_tensor).flatten ++ ws))

/-- The spec's claimed whole-file layout (section 4.5): identical to
`save_model` except that each tensor is laid out with the leading `ndims`
field. -/
def spec_layout {α : Type} (layers : List (KLayer α)) : Except String (List (FileWord α)) :=
  match checkPass layers 0 with
  | Except.error e => Except.error e
  | Except.ok n => (spec_layout_go layers).map (fun ws => FileWord.i n :: ws)

/-- The export block one supported layer contributes to the file, stated
denotationally for the layout theorem: kind code, activation code, then the
tensors in order, each as `write_tensor` lays it out. -/
def exportBlock {α : Type} (l : KLayer α) : List (FileWord α) :=
  match LAYER_TYPES.lookup (unwrapLayer l).kindName,
        ACTIVATION_TYPES.lookup (unwrapLayer l).activationName with
  | some code, some acode =>
    FileWord.i code :: FileWord.i acode ::
      (((unwrapLayer l).weights.map write_tensor).flatten)
  | _, _ => []

/-- Whether `save_model` exports this layer: its unwrapped kind is in the
layer table. -/
def exported {α : Type} (l : KLayer α) : Bool :=
  (LAYER_TYPES.lookup (unwrapLayer l).kindName).isSome

/-! Concrete instances used by counterexamples and witnesses. -/

/-- An SVD backend behaviour for evaluation: it decomposes the matrix
`diagonal (2, 0, 0)` — exactly, as `1 * diagonal (2, 0, 0) * 1` — and
fails (raises) on every other input. -/
def svdDiagOracle : Svd :=
  fun M => if M = Matrix.diagonal ![2, 0, 0] then some (1, ![2, 0, 0], 1) else none

/-- An SVD backend behaviour for the degenerate case: on the zero
cross-covariance matrix it returns the exact decomposition
`0 = 1 * diagonal 0 * 1` (as LAPACK does: the SVD of a finite matrix
succeeds), and fails elsewhere. -/
def svdZeroOracle : Svd :=
  fun M => if M = 0 then some (1, 0, 1) else none

/-- A template of three markers whose self-covariance is `diagonal (2, 0, 0)`. -/
def tri0 : MarkerSet := [![1, 0, 0], ![-1, 0, 0], ![0, 0, 0]]

/-- A degenerate MarkerSet: three coincident points (also rank-deficient
`H`). -/
def triSame : MarkerSet := [![1, 2, 3], ![1, 2, 3], ![1, 2, 3]]

/-- The template `tri0` translated by `(1, 0, 0)`: a frame whose alignment
against `tri0` succeeds with `R = 1`, `t = (-1, 0, 0)`. -/
def frameShift : MarkerSet := [![2, 0, 0], ![0, 0, 0], ![1, 0, 0]]

/-- A frame of three coincident markers at the origin: its cross-covariance
with any template is `0`, so `svdDiagOracle` fails on it — a frame whose
alignment raises. -/
def frameZero : MarkerSet := [![0, 0, 0], ![0, 0, 0], ![0, 0, 0]]

/-- Four markers whose rows 0 and 2 carry the `±(1,0,0)` pattern and whose
rows 1 and 3 are decoys; used to exercise occlusion of markers 1 and 3. -/
def quad0 : MarkerSet := [![1, 0, 0], ![9, 9, 9], ![-1, 0, 0], ![8, 8, 8]]

/-- A supported layer record: a `Dense`/`relu` layer with one 2×3 weight
tensor. -/
def denseLayer : KLayer ℚ :=
  KLayer.base "Dense" "relu" [Tensor.mk [2, 3] [1, 2, 3, 4, 5, 6]]

/-- A layer whose kind is outside `LAYER_TYPES` (as the `Dropout` layers of
both training scripts are). -/
def dropoutLayer : KLayer ℚ := KLayer.base "Dropout" "" []

/-- A layer of supported kind whose activation is outside
`ACTIVATION_TYPES`. -/
def softmaxLayer : KLayer ℚ := KLayer.base "Dense" "softmax" []

/-! Shared helper lemmas. -/

/-- Negating one row of a 3×3 matrix negates its determinant. -/
lemma negRow_det (M : Mat3) (i : Fin 3) : (negRow M i).det = -M.det := by
  have h : -(M i) = (-1 : ℚ) • (M i) := by funext j; simp
  rw [negRow, h, Matrix.det_updateRow_smul, Matrix.updateRow_eq_self]
  ring

/-- An orthogonal matrix has determinant `1` or `-1`. -/
lemma det_pm_one_of_orthogonal (U : Mat3) (hU : U.transpose * U = 1) :
    U.det = 1 ∨ U.det = -1 := by
  have h : U.det * U.det = 1 := by
    have h2 := congrArg Matrix.det hU
    rwa [Matrix.det_mul, Matrix.det_transpose, Matrix.det_one] at h2
  exact mul_self_eq_one_iff.mp h

/-- Evaluation rule for `rigid_motion` when the SVD oracle answers and no
reflection correction fires. -/
lemma rigid_motion_eval_id (svd : Svd) (X Y : MarkerSet) (S : Vec3)
    (hsvd : svd (crossCov X Y) = some (1, S, 1)) :
    rigid_motion svd X Y = some (1, -(npMean X) + npMean Y) := by
  have h10 : ¬ ((1 : ℚ) < 0) := by norm_num
  simp [rigid_motion, hsvd, Matrix.vecMul_one, h10]

/-- The centroid of the template `tri0` is the origin. -/
lemma npMean_tri0 : npMean tri0 = ![0, 0, 0] := by
  funext j
  fin_cases j <;>
    simp [npMean, tri0, Matrix.vecHead, Matrix.vecTail] <;> norm_num

/-- The self cross-covariance of `tri0` is `diagonal (2, 0, 0)`, as is the
cross-covariance of its translate `frameShift` against it. -/
lemma crossCov_tri0 :
    crossCov tri0 tri0 = Matrix.diagonal ![2, 0, 0] ∧
    crossCov frameShift tri0 = Matrix.diagonal ![2, 0, 0] := by
  constructor <;>
  · ext j k
    fin_cases j <;> fin_cases k <;>
      simp [crossCov, npMean, tri0, frameShift, Matrix.diagonal,
        Matrix.vecHead, Matrix.vecTail] <;> norm_num

/-! Claim C5 — Kabsch with reflection correction. -/

/-- C5: for point sets `X`, `Y` of equal cardinality `N ≥ 3`, when the SVD
backend returns a genuine decomposition `H = U * diagonal S * V` of the
cross-covariance `H = (Y - Ȳ)ᵀ(X - X̄)` with orthogonal factors,
`rigid_motion` returns `R = Vᵀ·Uᵀ`, replaced — whenever `det R < 0` — by
the recomputation with the last row of `V` negated; the returned rotation
always has determinant `+1`, and the returned translation is
`t = -X̄·R + Ȳ`. -/
theorem rigid_motion_proper_rotation (svd : Svd) (X Y : MarkerSet)
    (U : Mat3) (S : Vec3) (V : Mat3)
    (hcard : X.length = Y.length) (hN : 3 ≤ X.length)
    (hsvd : svd (crossCov X Y) = some (U, S, V))
    (hdecomp : crossCov X Y = U * Matrix.diagonal S * V)
    (hU : U.transpose * U = 1) (hV : V.transpose * V = 1) :
    rigid_motion svd X Y = some
      (if (V.transpose * U.transpose).det < 0
        then (negRow V 2).transpose * U.transpose
        else V.transpose * U.transpose,
       -(Matrix.vecMul (npMean X)
          (if (V.transpose * U.transpose).det < 0
            then (negRow V 2).transpose * U.transpose
            else V.transpose * U.transpose)) + npMean Y) ∧
    (if (V.transpose * U.transpose).det < 0
      then (negRow V 2).transpose * U.transpose
      else V.transpose * U.transpose).det = 1 := by
  have hR0 : (V.transpose * U.transpose).det = V.det * U.det := by
    rw [Matrix.det_mul, Matrix.det_transpose, Matrix.det_transpose]
  have hflip : ((negRow V 2).transpose * U.transpose).det = -(V.det * U.det) := by
    rw [Matrix.det_mul, Matrix.det_transpose, Matrix.det_transpose, negRow_det]
    ring
  have hpm : V.det * U.det = 1 ∨ V.det * U.det = -1 := by
    rcases det_pm_one_of_orthogonal U hU with h1 | h1 <;>
      rcases det_pm_one_of_orthogonal V hV with h2 | h2 <;>
        rw [h1, h2] <;> norm_num
  refine ⟨by simp [rigid_motion, hsvd], ?_⟩
  split_ifs with h
  · rw [hflip]
    rw [hR0] at h
    rcases hpm with h3 | h3
    · rw [h3] at h; norm_num at h
    · rw [h3]; norm_num
  · rw [hR0]
    rw [hR0] at h
    rcases hpm with h3 | h3
    · exact h3
    · rw [h3] at h; norm_num at h

/-- Witness for C5 at a concrete input: `X = Y = tri0` (three points), with
the oracle `svdDiagOracle` decomposing `H = diagonal (2,0,0)` as
`1 * diagonal (2,0,0) * 1`. -/
theorem rigid_motion_proper_rotation_witness :
    (tri0.length = tri0.length ∧ 3 ≤ tri0.length ∧
      svdDiagOracle (crossCov tri0 tri0) = some (1, ![2, 0, 0], 1) ∧
      crossCov tri0 tri0 = 1 * Matrix.diagonal ![2, 0, 0] * 1 ∧
      (1 : Mat3).transpose * 1 = 1) ∧
    (rigid_motion svdDiagOracle tri0 tri0 = some
      (if ((1 : Mat3).transpose * (1 : Mat3).transpose).det < 0
        then (negRow 1 2).transpose * (1 : Mat3).transpose
        else (1 : Mat3).transpose * (1 : Mat3).transpose,
       -(Matrix.vecMul (npMean tri0)
          (if ((1 : Mat3).transpose * (1 : Mat3).transpose).det < 0
            then (negRow 1 2).transpose * (1 : Mat3).transpose
            else (1 : Mat3).transpose * (1 : Mat3).transpose)) + npMean tri0) ∧
    (if ((1 : Mat3).transpose * (1 : Mat3).transpose).det < 0
      then (negRow 1 2).transpose * (1 : Mat3).transpose
      else (1 : Mat3).transpose * (1 : Mat3).transpose).det = 1) := by
  have hH : svdDiagOracle (crossCov tri0 tri0) = some (1, ![2, 0, 0], 1) := by
    rw [crossCov_tri0.1]; simp [svdDiagOracle]
  have hdec : crossCov tri0 tri0 = 1 * Matrix.diagonal ![2, 0, 0] * 1 := by
    rw [crossCov_tri0.1, one_mul, mul_one]
  refine ⟨⟨rfl, by simp [tri0], hH, hdec, by simp⟩, ?_⟩
  exact rigid_motion_proper_rotation svdDiagOracle tri0 tri0 1 ![2, 0, 0] 1
    rfl (by simp [tri0]) hH hdec (by simp) (by simp)

/-! Claim C2 — degenerate input does not make the kernel signal. -/

/-- C2 counterexample: on the degenerate input of three coincident points
(`triSame`, so `H = 0`, rank-deficient and `N`'s points neither spanning
nor distinct), an SVD backend that — like LAPACK — successfully returns the
valid decomposition `0 = 1 * diagonal 0 * 1` with orthogonal factors makes
`rigid_motion` return a rotation and translation; it signals nothing.  This
falsifies the claim that degenerate input makes the kernel raise rather
than return. -/
theorem rigid_motion_degenerate_returns :
    ((0 : Mat3) = 1 * Matrix.diagonal 0 * 1 ∧ (1 : Mat3).transpose * 1 = 1) ∧
    crossCov triSame tri0 = 0 ∧
    rigid_motion svdZeroOracle triSame tri0 =
      some (1, ![-1, -2, -3]) := by
  have hH : crossCov triSame tri0 = 0 := by
    ext j k
    fin_cases j <;> fin_cases k <;>
      simp [crossCov, npMean, triSame, tri0, Matrix.vecHead, Matrix.vecTail] <;>
        ring
  have hsvd : svdZeroOracle (crossCov triSame tri0) = some (1, 0, 1) := by
    rw [hH]; simp [svdZeroOracle]
  have hdiag : (0 : Mat3) = 1 * Matrix.diagonal 0 * 1 := by
    ext j k
    simp [Matrix.diagonal_apply]
  refine ⟨⟨hdiag, by simp⟩, hH, ?_⟩
  rw [rigid_motion_eval_id svdZeroOracle triSame tri0 0 hsvd]
  have hm1 : npMean triSame = ![1, 2, 3] := by
    funext j; fin_cases j <;>
      simp [npMean, triSame, Matrix.vecHead, Matrix.vecTail] <;> norm_num
  have hm0 : npMean tri0 = ![0, 0, 0] := by
    funext j; fin_cases j <;>
      simp [npMean, tri0, Matrix.vecHead, Matrix.vecTail] <;> norm_num
  rw [hm1, hm0]
  have hv : -(![1, 2, 3] : Vec3) + ![0, 0, 0] = ![-1, -2, -3] := by
    funext j
    fin_cases j <;> simp [Matrix.vecHead, Matrix.vecTail]
  rw [hv]

/-- C2 as amended: `rigid_motion` performs no degeneracy check of its own —
it returns a rotation/translation exactly when the SVD backend returns a
decomposition of the cross-covariance (which LAPACK does for every finite
input, degenerate or not), and fails exactly when the SVD call itself
raises. -/
theorem rigid_motion_fails_iff_svd_fails (svd : Svd) (X Y : MarkerSet) :
    (rigid_motion svd X Y).isSome = (svd (crossCov X Y)).isSome := by
  simp [rigid_motion]

/-! Claim C1 — what the Pose Normalizer actually does when alignment
raises. -/

/-- Alignment of the translated frame `frameShift` against `tri0` under
`svdDiagOracle` succeeds with the identity rotation and translation
`(-1, 0, 0)`. -/
lemma rigid_motion_frameShift :
    rigid_motion svdDiagOracle frameShift tri0 = some (1, ![-1, 0, 0]) := by
  have hsvd : svdDiagOracle (crossCov frameShift tri0) = some (1, ![2, 0, 0], 1) := by
    rw [crossCov_tri0.2]; simp [svdDiagOracle]
  rw [rigid_motion_eval_id _ _ _ _ hsvd]
  have hm : npMean frameShift = ![1, 0, 0] := by
    funext j
    fin_cases j <;>
      simp [npMean, frameShift, Matrix.vecHead, Matrix.vecTail] <;> norm_num
  rw [hm, npMean_tri0]
  have hv : -(![1, 0, 0] : Vec3) + ![0, 0, 0] = ![-1, 0, 0] := by
    funext j
    fin_cases j <;> simp [Matrix.vecHead, Matrix.vecTail]
  rw [hv]

/-- Alignment of the all-coincident frame `frameZero` against `tri0` under
`svdDiagOracle` raises: its cross-covariance is `0`, on which this backend
fails. -/
lemma rigid_motion_frameZero :
    rigid_motion svdDiagOracle frameZero tri0 = none := by
  have hH : crossCov frameZero tri0 = 0 := by
    ext j k
    fin_cases j <;> fin_cases k <;>
      simp [crossCov, npMean, frameZero, tri0, Matrix.vecHead, Matrix.vecTail] <;>
        ring
  have hsvd : svdDiagOracle (crossCov frameZero tri0) = none := by
    rw [hH]
    simp only [svdDiagOracle]
    rw [if_neg]
    intro h
    have h00 := Matrix.ext_iff.mpr h 0 0
    simp [Matrix.diagonal_apply] at h00
  simp [rigid_motion, hsvd]

/-- C1 fails as a code bug.  At the concrete batch `[frameShift, frameZero]`
(template `tri0`, alignment markers `[0, 1, 2]`), the second frame's
alignment raises; `normalize_positions` does increment the failure counter
exactly once, but — because the transform line sits outside the
`try`/`except` in the source — it still transforms that frame, applying
the PREVIOUS frame's rotation and translation, so the frame is not left
untransformed.  And when the failing frame comes first, the transform line
reads the never-bound `R`, so the whole run aborts with a `NameError`
(third component `true`). -/
theorem normalize_positions_stale_transform :
    rigid_motion svdDiagOracle (select frameZero [0, 1, 2]) (select tri0 [0, 1, 2]) = none ∧
    normalize_positions svdDiagOracle tri0 [0, 1, 2] [frameShift, frameZero] =
      ([[![1, 0, 0], ![-1, 0, 0], ![0, 0, 0]],
        [![-1, 0, 0], ![-1, 0, 0], ![-1, 0, 0]]], 1, false) ∧
    ([![-1, 0, 0], ![-1, 0, 0], ![-1, 0, 0]] : MarkerSet) ≠ frameZero ∧
    normalize_positions svdDiagOracle tri0 [0, 1, 2] [frameZero] =
      ([frameZero], 1, true) := by
  have hselT : select tri0 [0, 1, 2] = tri0 := rfl
  have hselS : select frameShift [0, 1, 2] = frameShift := rfl
  have hselZ : select frameZero [0, 1, 2] = frameZero := rfl
  refine ⟨by rw [hselZ, hselT]; exact rigid_motion_frameZero, ?_, ?_, ?_⟩
  · show normalizeGo svdDiagOracle (select tri0 [0, 1, 2]) [0, 1, 2]
      [frameShift, frameZero] none 0 = _
    rw [hselT]
    simp only [normalizeGo, hselS, hselZ, rigid_motion_frameShift,
      rigid_motion_frameZero]
    simp only [applyRt, Matrix.vecMul_one, frameShift, frameZero, List.map_cons,
      List.map_nil]
    refine congrArg (fun l => (l, 1, false)) ?_
    have h1 : (![2, 0, 0] : Vec3) + ![-1, 0, 0] = ![1, 0, 0] := by
      funext j; fin_cases j <;> simp [Matrix.vecHead, Matrix.vecTail] <;> norm_num
    have h2 : (![0, 0, 0] : Vec3) + ![-1, 0, 0] = ![-1, 0, 0] := by
      funext j; fin_cases j <;> simp [Matrix.vecHead, Matrix.vecTail]
    have h3 : (![1, 0, 0] : Vec3) + ![-1, 0, 0] = ![0, 0, 0] := by
      funext j; fin_cases j <;> simp [Matrix.vecHead, Matrix.vecTail]
    rw [h1, h2, h3]
  · intro h
    rw [frameZero] at h
    have h0 : (![-1, 0, 0] : Vec3) = ![0, 0, 0] := (List.cons.injEq _ _ _ _ ▸ h).1
    have := congrFun h0 0
    norm_num at this
  · show normalizeGo svdDiagOracle (select tri0 [0, 1, 2]) [0, 1, 2]
      [frameZero] none 0 = _
    rw [hselT]
    simp only [normalizeGo, hselZ, rigid_motion_frameZero]

/-! Claim C10 — `normalize_positions` works in place on its argument
array. -/

/-- When the normalization loop runs to completion (no `NameError` abort),
every frame whose own alignment succeeded ends up holding exactly its own
transformed coordinates. -/
lemma normalizeGo_not_aborted_get (svd : Svd) (Y : MarkerSet) (align : List Nat)
    (frames : List MarkerSet) :
    ∀ (rt0 : Option (Mat3 × Vec3)) (errs : Nat),
      (normalizeGo svd Y align frames rt0 errs).2.2 = false →
      ∀ (i : Nat) (f : MarkerSet) (R : Mat3) (t : Vec3), frames.get? i = some f →
        rigid_motion svd (select f align) Y = some (R, t) →
        (normalizeGo svd Y align frames rt0 errs).1.get? i =
          some (f.map (applyRt R t)) := by
  induction frames with
  | nil =>
    intro rt0 errs _ i f R t h
    simp at h
  | cons f0 rest ih =>
    intro rt0 errs habort i f R t hget hrm
    cases h0 : rigid_motion svd (select f0 align) Y with
    | some rt =>
      simp only [normalizeGo, h0] at habort ⊢
      cases i with
      | zero =>
        simp only [List.get?] at hget
        cases hget
        rw [h0] at hrm
        cases hrm
        simp
      | succ i =>
        simp only [List.get?] at hget ⊢
        exact ih (some rt) errs habort i f R t hget hrm
    | none =>
      cases rt0 with
      | none => simp [normalizeGo, h0] at habort
      | some rt =>
        simp only [normalizeGo, h0] at habort ⊢
        cases i with
        | zero =>
          simp only [List.get?] at hget
          cases hget
          rw [h0] at hrm
          cases hrm
        | succ i =>
          simp only [List.get?] at hget ⊢
          exact ih (some rt) (errs + 1) habort i f R t hget hrm

/-- C10: `normalize_positions` transforms the caller's array in place.  In
the store-passing view, a normal (non-aborting) call returns the very
reference it was given — never a fresh copy — the cell behind that
reference now holds the loop's output contents (in particular, every
successfully aligned frame holds its transformed coordinates), and no
other cell of the store is touched. -/
theorem normalize_positions_in_place (svd : Svd) (hand : MarkerSet)
    (align : List Nat) (r : Nat) (store : List (List MarkerSet))
    (hr : r < store.length) :
    (∀ q, (normalize_positions_ref svd hand align r store).2 = Except.ok q → q = r) ∧
    (normalize_positions_ref svd hand align r store).1.length = store.length ∧
    (normalize_positions_ref svd hand align r store).1.getD r [] =
      (normalize_positions svd hand align (store.getD r [])).1 ∧
    (∀ q, q ≠ r → (normalize_positions_ref svd hand align r store).1.getD q [] =
      store.getD q []) ∧
    ((normalize_positions svd hand align (store.getD r [])).2.2 = false →
      ∀ (i : Nat) (f : MarkerSet) (R : Mat3) (t : Vec3),
        (store.getD r []).get? i = some f →
        rigid_motion svd (select f align) (select hand align) = some (R, t) →
        ((normalize_positions_ref svd hand align r store).1.getD r []).get? i =
          some (f.map (applyRt R t))) := by
  have hset_r : (normalize_positions_ref svd hand align r store).1.getD r [] =
      (normalize_positions svd hand align (store.getD r [])).1 := by
    simp only [normalize_positions_ref, List.getD]
    rw [List.get?_set_eq_of_lt _ (by simpa using hr)]
    simp
  refine ⟨?_, ?_, hset_r, ?_, ?_⟩
  · intro q h
    simp only [normalize_positions_ref] at h
    by_cases hb : (normalize_positions svd hand align (store.getD r [])).2.2
    · rw [if_pos hb] at h; cases h
    · rw [if_neg hb] at h; cases h; rfl
  · simp [normalize_positions_ref]
  · intro q hq
    simp only [normalize_positions_ref, List.getD]
    rw [List.get?_set_ne _ _ (fun h => hq h.symm)]
  · intro habort i f R t hget hrm
    rw [hset_r]
    exact normalizeGo_not_aborted_get svd (select hand align) align
      (store.getD r []) none 0 habort i f R t hget hrm

/-- Witness for C10 at a concrete input: a store holding the single-frame
array `[frameShift]` at reference `0`, normalized against `tri0`. -/
theorem normalize_positions_in_place_witness :
    (0 < ([[frameShift]] : List (List MarkerSet)).length) ∧
    ((∀ q, (normalize_positions_ref svdDiagOracle tri0 [0, 1, 2] 0 [[frameShift]]).2 =
        Except.ok q → q = 0) ∧
    (normalize_positions_ref svdDiagOracle tri0 [0, 1, 2] 0 [[frameShift]]).1.length =
      ([[frameShift]] : List (List MarkerSet)).length ∧
    (normalize_positions_ref svdDiagOracle tri0 [0, 1, 2] 0 [[frameShift]]).1.getD 0 [] =
      (normalize_positions svdDiagOracle tri0 [0, 1, 2]
        (([[frameShift]] : List (List MarkerSet)).getD 0 [])).1 ∧
    (∀ q, q ≠ 0 →
      (normalize_positions_ref svdDiagOracle tri0 [0, 1, 2] 0 [[frameShift]]).1.getD q [] =
        ([[frameShift]] : List (List MarkerSet)).getD q []) ∧
    ((normalize_positions svdDiagOracle tri0 [0, 1, 2]
        (([[frameShift]] : List (List MarkerSet)).getD 0 [])).2.2 = false →
      ∀ (i : Nat) (f : MarkerSet) (R : Mat3) (t : Vec3),
        (([[frameShift]] : List (List MarkerSet)).getD 0 []).get? i = some f →
        rigid_motion svdDiagOracle (select f [0, 1, 2]) (select tri0 [0, 1, 2]) =
          some (R, t) →
        ((normalize_positions_ref svdDiagOracle tri0 [0, 1, 2] 0 [[frameShift]]).1.getD 0
            []).get? i = some (f.map (applyRt R t)))) :=
  ⟨by simp, normalize_positions_in_place svdDiagOracle tri0 [0, 1, 2] 0 [[frameShift]]
    (by simp)⟩

/-! Claim C8 — flatten/unflatten round trip. -/

/-- A 3-vector is recovered from its three listed coordinates. -/
lemma vec3_eta (p : Vec3) : (![p 0, p 1, p 2] : Vec3) = p := by
  funext j
  fin_cases j <;> simp

/-- C8: flattening a MarkerSet of `N` points row-major (marker-major, then
x, y, z) yields a vector of length `3N`, and unflattening (reshaping back
to rows of three) recovers the original MarkerSet exactly — every value
and the index order preserved. -/
theorem extract_input_features_roundtrip (m : MarkerSet) :
    unflattenMarkers (extract_input_features m) = m ∧
    (extract_input_features m).length = 3 * m.length := by
  induction m with
  | nil => exact ⟨rfl, rfl⟩
  | cons p rest ih =>
    refine ⟨?_, ?_⟩
    · show unflattenMarkers (p 0 :: p 1 :: p 2 :: flattenMarkers rest) = p :: rest
      rw [unflattenMarkers]
      rw [vec3_eta]
      exact congrArg (p :: ·) ih.1
    · show (p 0 :: p 1 :: p 2 :: flattenMarkers rest).length = 3 * (rest.length + 1)
      simp only [List.length_cons]
      have := ih.2
      simp only [extract_input_features] at this
      omega

/-! Claim C9 — angle normalization range. -/

/-- C9: for a joint-angle value within one revolution (`-180 ≤ v ≤ 360`,
the range Euler angles are reported in), a value greater than `180` is
shifted by `-360` into `[-180, 180)`, and after the division by `180` the
normalized value lies in `[-1, 1]`. -/
theorem pre_process_angle_range (v : ℚ) (hlo : -180 ≤ v) (hhi : v ≤ 360) :
    (180 < v → -180 ≤ v - 360 ∧ v - 360 < 180) ∧
    -1 ≤ pre_process_angle v ∧ pre_process_angle v ≤ 1 := by
  have h180 : (0 : ℚ) < 180 := by norm_num
  refine ⟨fun h => ⟨by linarith, by linarith⟩, ?_, ?_⟩
  · rw [pre_process_angle]
    split_ifs with h
    · rw [le_div_iff h180]; linarith
    · rw [le_div_iff h180]; linarith
  · rw [pre_process_angle]
    split_ifs with h
    · rw [div_le_one h180]; linarith
    · rw [div_le_one h180]; linarith

/-- Witness for C9 at `v = 270`: shifted to `-90`, normalized to `-1/2`. -/
theorem pre_process_angle_range_witness :
    (-180 ≤ (270 : ℚ) ∧ (270 : ℚ) ≤ 360) ∧
    ((180 < (270 : ℚ) → -180 ≤ (270 : ℚ) - 360 ∧ (270 : ℚ) - 360 < 180) ∧
      -1 ≤ pre_process_angle 270 ∧ pre_process_angle 270 ≤ 1) :=
  ⟨⟨by norm_num, by norm_num⟩,
    pre_process_angle_range 270 (by norm_num) (by norm_num)⟩

/-! Claim C7 — the minibatch cursor visits every index exactly once per
pass. -/

/-- While the cursor has not reached the end of the current permutation, no
reshuffle happens: `m` selections starting at position `c` return exactly
the permutation's entries `c, c+1, …, c+m-1` and advance the cursor to
`c + m`. -/
lemma selectRun_no_reset (n : Nat) (perms : Nat → List Nat) (π : List Nat)
    (hlen : π.length = n) :
    ∀ (m c r : Nat), c + m ≤ n →
      selectRun n perms m (GenState.mk c π r) =
        ((π.drop c).take m, GenState.mk (c + m) π r) := by
  intro m
  induction m with
  | zero => intro c r _; simp [selectRun]
  | succ m ih =>
    intro c r hcm
    have hc : c < n := by omega
    have hcπ : c < π.length := by omega
    have hstep : selectNext n perms (GenState.mk c π r) =
        (π.getD c 0, GenState.mk (c + 1) π r) := by
      simp [selectNext, Nat.ne_of_lt hc]
    rw [selectRun, hstep]
    rw [ih (c + 1) r (by omega)]
    have hd : (π.drop c).take (m + 1) = π.getD c 0 :: (π.drop (c + 1)).take m := by
      rw [List.drop_eq_getElem_cons hcπ, List.take_succ_cons,
        List.getD_eq_getElem π 0 hcπ]
    rw [hd]
    have hcc : c + 1 + m = c + (m + 1) := by omega
    rw [hcc]

/-- Each minibatch consumes exactly `batch_size` selections, regardless of
the cursor state — reshuffles happen mid-batch, never truncating a batch. -/
lemma selectRun_length (n : Nat) (perms : Nat → List Nat) :
    ∀ (m : Nat) (s : GenState), (selectRun n perms m s).1.length = m := by
  intro m
  induction m with
  | zero => intro s; rfl
  | succ m ih => intro s; simp [selectRun, ih]

/-- C7: starting from a freshly reset cursor over a permutation `π` of the
`n` sample indices, the `n` selections of one pass return `π` itself — so
each of the `n` indices is selected exactly once per pass — and the very
next selection draws a fresh permutation from the randomness oracle and
resets the cursor; moreover every minibatch has exactly `batch_size`
selections, whatever the cursor state (a reset happens mid-batch rather
than truncating the batch). -/
theorem generate_minibatch_pass (n b r : Nat) (perms : Nat → List Nat)
    (π : List Nat) (hn : 0 < n) (hπ : π.Perm (List.range n)) :
    selectRun n perms n (GenState.mk 0 π r) = (π, GenState.mk n π r) ∧
    (∀ i, i < n → π.count i = 1) ∧
    selectNext n perms (GenState.mk n π r) =
      ((perms r).getD 0 0, GenState.mk 1 (perms r) (r + 1)) ∧
    (∀ s : GenState, (generate_minibatch_idxs n perms b s).1.length = b) := by
  have hlen : π.length = n := by
    have h1 := hπ.length_eq
    rwa [List.length_range] at h1
  refine ⟨?_, ?_, ?_, ?_⟩
  · rw [selectRun_no_reset n perms π hlen n 0 r (by omega)]
    rw [List.drop_zero, Nat.zero_add, ← hlen, List.take_length]
  · intro i hi
    rw [hπ.count_eq]
    exact List.count_eq_one_of_mem (List.nodup_range n) (List.mem_range.mpr hi)
  · simp [selectNext]
  · intro s
    exact selectRun_length n perms b s

/-- Witness for C7 at `n = 3`, `batch_size = 5`, permutation `[2, 0, 1]`,
with the oracle always answering `[1, 2, 0]` for the next reshuffle. -/
theorem generate_minibatch_pass_witness :
    (0 < 3 ∧ ([2, 0, 1] : List Nat).Perm (List.range 3)) ∧
    (selectRun 3 (fun _ => [1, 2, 0]) 3 (GenState.mk 0 [2, 0, 1] 0) =
        ([2, 0, 1], GenState.mk 3 [2, 0, 1] 0) ∧
      (∀ i, i < 3 → ([2, 0, 1] : List Nat).count i = 1) ∧
      selectNext 3 (fun _ => [1, 2, 0]) (GenState.mk 3 [2, 0, 1] 0) =
        (([1, 2, 0] : List Nat).getD 0 0, GenState.mk 1 [1, 2, 0] 1) ∧
      (∀ s : GenState,
        (generate_minibatch_idxs 3 (fun _ => [1, 2, 0]) 5 s).1.length = 5)) :=
  ⟨⟨by decide, by decide⟩,
    generate_minibatch_pass 3 5 0 (fun _ => [1, 2, 0]) [2, 0, 1]
      (by decide) (by decide)⟩

/-! Claim C6 — the occlusion augmentation sample. -/

/-- Row `i` of the zeroed copy: the original row where `base + i` is not an
occluded index, the zero row where it is. -/
lemma zeroOccludedGo_get? (occl : List Nat) :
    ∀ (y : List Vec3) (base i : Nat),
      (zeroOccludedGo occl base y).get? i =
        (y.get? i).map
          (fun p => if occl.contains (base + i) then (fun _ => 0) else p) := by
  intro y
  induction y with
  | nil => intro base i; simp [zeroOccludedGo]
  | cons p rest ih =>
    intro base i
    cases i with
    | zero => simp [zeroOccludedGo]
    | succ i =>
      rw [zeroOccludedGo]
      simp only [List.get?]
      rw [ih (base + 1) i]
      have h : base + 1 + i = base + (i + 1) := by omega
      rw [h]

/-- The sorted in-range occluded-index list is a permutation of a
duplicate-free, in-range occlusion draw — in particular they have the same
cardinality. -/
lemma occludedIdxs_perm (n : Nat) (occl : List Nat) (hnd : occl.Nodup)
    (hin : ∀ i ∈ occl, i < n) : (occludedIdxs n occl).Perm occl := by
  rw [occludedIdxs]
  rw [List.perm_ext_iff_of_nodup ((List.nodup_range n).filter _) hnd]
  intro a
  simp only [List.mem_filter, List.mem_range]
  constructor
  · intro h
    exact List.elem_iff.mp h.2
  · intro h
    exact ⟨hin a h, List.elem_iff.mpr h⟩

/-- C6: with a duplicate-free in-range occlusion mask of size `k`, when the
rigid alignment computed from ONLY the markers outside the mask (against
the corresponding template subset) succeeds with `(R, t)`,
`extract_features` returns the fully aligned cloud, flattened, as the
target `y`, and as the input `x` the same cloud with the rows of the mask
zeroed: `x` has exactly `k` zeroed marker triplets and agrees with `y` on
every other marker. -/
theorem extract_features_occlusion (svd : Svd) (hand sample : MarkerSet)
    (occl : List Nat) (k : Nat) (R : Mat3) (t : Vec3)
    (hnd : occl.Nodup) (hk : occl.length = k)
    (hin : ∀ i ∈ occl, i < sample.length)
    (hrm : rigid_motion svd (select sample (availableIdxs sample.length occl))
        (select hand (availableIdxs sample.length occl)) = some (R, t)) :
    extract_features svd hand sample occl =
      some (flattenMarkers (zeroOccluded occl (sample.map (applyRt R t))),
            flattenMarkers (sample.map (applyRt R t))) ∧
    (occludedIdxs sample.length occl).length = k ∧
    (∀ i, i ∈ occl →
      (zeroOccluded occl (sample.map (applyRt R t))).get? i = some (fun _ => 0)) ∧
    (∀ i, i < sample.length → i ∉ occl →
      (zeroOccluded occl (sample.map (applyRt R t))).get? i =
        (sample.map (applyRt R t)).get? i) := by
  refine ⟨?_, ?_, ?_, ?_⟩
  · simp [extract_features, hrm, zeroOccluded]
  · rw [(occludedIdxs_perm sample.length occl hnd hin).length_eq, hk]
  · intro i hi
    rw [zeroOccluded, zeroOccludedGo_get? occl _ 0 i]
    have hiy : i < (sample.map (applyRt R t)).length := by
      rw [List.length_map]; exact hin i hi
    rw [List.get?_eq_get hiy]
    simp [hi]
  · intro i hlt hni
    rw [zeroOccluded, zeroOccludedGo_get? occl _ 0 i]
    have hiy : i < (sample.map (applyRt R t)).length := by
      rw [List.length_map]; exact hlt
    rw [List.get?_eq_get hiy]
    simp [hni]

/-- Alignment of the visible subset `[0, 2]` of `quad0` against itself
succeeds with the identity motion under `svdDiagOracle`. -/
lemma rigid_motion_quad0_avail :
    rigid_motion svdDiagOracle (select quad0 (availableIdxs quad0.length [1, 3]))
      (select quad0 (availableIdxs quad0.length [1, 3])) = some (1, ![0, 0, 0]) := by
  have hsel : select quad0 (availableIdxs quad0.length [1, 3]) =
      [![1, 0, 0], ![-1, 0, 0]] := rfl
  rw [hsel]
  have hH : crossCov [![1, 0, 0], ![-1, 0, 0]] [![1, 0, 0], ![-1, 0, 0]] =
      Matrix.diagonal ![2, 0, 0] := by
    ext j k
    fin_cases j <;> fin_cases k <;>
      simp [crossCov, npMean, Matrix.diagonal, Matrix.vecHead, Matrix.vecTail] <;>
        norm_num
  have hsvd : svdDiagOracle
      (crossCov [![1, 0, 0], ![-1, 0, 0]] [![1, 0, 0], ![-1, 0, 0]]) =
      some (1, ![2, 0, 0], 1) := by
    rw [hH]; simp [svdDiagOracle]
  rw [rigid_motion_eval_id _ _ _ _ hsvd]
  have hm : npMean [![1, 0, 0], ![-1, 0, 0]] = ![0, 0, 0] := by
    funext j
    fin_cases j <;> simp [npMean, Matrix.vecHead, Matrix.vecTail]
  rw [hm]
  have hv : -(![0, 0, 0] : Vec3) + ![0, 0, 0] = ![0, 0, 0] := by
    funext j
    fin_cases j <;> simp [Matrix.vecHead, Matrix.vecTail]
  rw [hv]

/-- Witness for C6 at a concrete input: sample and template `quad0`,
occlusion mask `[1, 3]` of size `k = 2`. -/
theorem extract_features_occlusion_witness :
    (([1, 3] : List Nat).Nodup ∧ ([1, 3] : List Nat).length = 2 ∧
      (∀ i ∈ ([1, 3] : List Nat), i < quad0.length) ∧
      rigid_motion svdDiagOracle (select quad0 (availableIdxs quad0.length [1, 3]))
        (select quad0 (availableIdxs quad0.length [1, 3])) = some (1, ![0, 0, 0])) ∧
    (extract_features svdDiagOracle quad0 quad0 [1, 3] =
      some (flattenMarkers (zeroOccluded [1, 3] (quad0.map (applyRt 1 ![0, 0, 0]))),
            flattenMarkers (quad0.map (applyRt 1 ![0, 0, 0]))) ∧
    (occludedIdxs quad0.length [1, 3]).length = 2 ∧
    (∀ i, i ∈ ([1, 3] : List Nat) →
      (zeroOccluded [1, 3] (quad0.map (applyRt 1 ![0, 0, 0]))).get? i =
        some (fun _ => 0)) ∧
    (∀ i, i < quad0.length → i ∉ ([1, 3] : List Nat) →
      (zeroOccluded [1, 3] (quad0.map (applyRt 1 ![0, 0, 0]))).get? i =
        (quad0.map (applyRt 1 ![0, 0, 0])).get? i)) :=
  ⟨⟨by decide, rfl, by intro i hi; fin_cases hi <;> simp [quad0],
      rigid_motion_quad0_avail⟩,
    extract_features_occlusion svdDiagOracle quad0 quad0 [1, 3] 2 1 ![0, 0, 0]
      (by decide) rfl (by intro i hi; fin_cases hi <;> simp [quad0])
      rigid_motion_quad0_avail⟩

/-! Claims C3 and C4 — the export codec. -/

/-- When every exported layer's activation is in the table, the
counting/validation pass succeeds and counts exactly the layers whose
unwrapped kind is in the layer table. -/
lemma checkPass_ok {α : Type} (layers : List (KLayer α))
    (h : ∀ l ∈ layers, exported l = true →
      (ACTIVATION_TYPES.lookup (unwrapLayer l).activationName).isSome) :
    ∀ n, checkPass layers n = Except.ok (n + layers.countP exported) := by
  induction layers with
  | nil => intro n; simp [checkPass]
  | cons a rest ih =>
    intro n
    simp only [checkPass]
    by_cases hk : (LAYER_TYPES.lookup (unwrapLayer a).kindName).isSome
    · have ha := h a (List.mem_cons_self a rest) (by rwa [exported])
      rw [if_pos hk, if_pos ha,
        ih (fun l hl hexp => h l (List.mem_cons_of_mem a hl) hexp) (n + 1)]
      have hcount : (a :: rest).countP exported = rest.countP exported + 1 := by
        rw [List.countP_cons]
        simp [exported, hk]
      rw [hcount]
      congr 1
      omega
    · rw [if_neg hk,
        ih (fun l hl hexp => h l (List.mem_cons_of_mem a hl) hexp) n]
      have hcount : (a :: rest).countP exported = rest.countP exported := by
        rw [List.countP_cons]
        simp [exported, hk]
      rw [hcount]

/-- Under the same condition, the writing pass succeeds and emits one
`exportBlock` per layer (the empty block for skipped kinds). -/
lemma writeLayers_ok {α : Type} (layers : List (KLayer α))
    (h : ∀ l ∈ layers, exported l = true →
      (ACTIVATION_TYPES.lookup (unwrapLayer l).activationName).isSome) :
    writeLayers layers = Except.ok ((layers.map exportBlock).flatten) := by
  induction layers with
  | nil => simp [writeLayers]
  | cons a rest ih =>
    simp only [writeLayers]
    cases hk : LAYER_TYPES.lookup (unwrapLayer a).kindName with
    | none =>
      rw [ih (fun l hl hexp => h l (List.mem_cons_of_mem a hl) hexp)]
      have hblock : exportBlock a = [] := by
        rw [exportBlock, hk]
      simp [hblock]
    | some code =>
      have ha := h a (List.mem_cons_self a rest) (by rw [exported, hk]; rfl)
      obtain ⟨acode, hac⟩ := Option.isSome_iff_exists.mp ha
      rw [hac, ih (fun l hl hexp => h l (List.mem_cons_of_mem a hl) hexp)]
      have hblock : exportBlock a =
          FileWord.i code :: FileWord.i acode ::
            ((unwrapLayer a).weights.map write_tensor).flatten := by
        rw [exportBlock, hk, hac]
      simp [hblock, Except.map]

/-- C3 as amended: whenever export succeeds (every layer whose unwrapped
kind is in the layer table has a listed activation), the produced file is
exactly an `int32` count of the exported layers followed by, per exported
layer, an `int32` layer-kind code, an `int32` activation-kind code and, for
each weight tensor, its `int32` shape entries (with NO leading `ndims`
count — the reader must know each tensor's rank a priori) followed by its
row-major `float32` data, with no padding; layers of unlisted kind
contribute nothing. -/
theorem save_model_layout {α : Type} (layers : List (KLayer α))
    (h : ∀ l ∈ layers, exported l = true →
      (ACTIVATION_TYPES.lookup (unwrapLayer l).activationName).isSome) :
    save_model layers = Except.ok
      (FileWord.i (layers.countP exported) :: (layers.map exportBlock).flatten) := by
  simp only [save_model]
  rw [checkPass_ok layers h 0, writeLayers_ok layers h]
  simp [Except.map]

/-- Witness for the amended C3 at a concrete model: a skipped `Dropout`
layer followed by a `Dense`/`relu` layer with one 2×3 tensor. -/
theorem save_model_layout_witness :
    (∀ l ∈ [dropoutLayer, denseLayer], exported l = true →
      (ACTIVATION_TYPES.lookup (unwrapLayer l).activationName).isSome) ∧
    save_model [dropoutLayer, denseLayer] = Except.ok
      (FileWord.i (([dropoutLayer, denseLayer]).countP exported) ::
        (([dropoutLayer, denseLayer]).map exportBlock).flatten) :=
  ⟨by decide, save_model_layout [dropoutLayer, denseLayer] (by decide)⟩

/-- C3 counterexample: on the one-layer model `[denseLayer]` the bytes
`save_model` produces differ from the spec's claimed self-describing
layout — the tensor's shape `[2, 3]` is written as the two words `2, 3`
with no `ndims = 2` field in front, so the claimed layout (which inserts
that field) does not match the produced file. -/
theorem save_model_layout_ne_spec :
    save_model [denseLayer] = Except.ok
      [FileWord.i 1, FileWord.i 0, FileWord.i 0,
       FileWord.i 2, FileWord.i 3,
       FileWord.f 1, FileWord.f 2, FileWord.f 3,
       FileWord.f 4, FileWord.f 5, FileWord.f 6] ∧
    spec_layout [denseLayer] = Except.ok
      [FileWord.i 1, FileWord.i 0, FileWord.i 0,
       FileWord.i 2, FileWord.i 2, FileWord.i 3,
       FileWord.f 1, FileWord.f 2, FileWord.f 3,
       FileWord.f 4, FileWord.f 5, FileWord.f 6] ∧
    save_model [denseLayer] ≠ spec_layout [denseLayer] := by
  refine ⟨rfl, rfl, ?_⟩
  intro h
  exact absurd (Except.ok.inj h) (by decide)

/-- No supported-kind layer with an unsupported activation survives the
validation pass: it errors out. -/
lemma checkPass_error {α : Type} :
    ∀ (layers : List (KLayer α)) (n : Nat),
      (∃ l ∈ layers, (LAYER_TYPES.lookup (unwrapLayer l).kindName).isSome ∧
        ACTIVATION_TYPES.lookup (unwrapLayer l).activationName = none) →
      ∃ e, checkPass layers n = Except.error e := by
  intro layers
  induction layers with
  | nil =>
    intro n h
    obtain ⟨l, hl, -⟩ := h
    exact absurd hl (List.not_mem_nil l)
  | cons a rest ih =>
    intro n h
    obtain ⟨l, hl, hk, ha⟩ := h
    simp only [checkPass]
    rcases List.mem_cons.mp hl with rfl | hl'
    · rw [if_pos hk]
      rw [if_neg (by rw [ha]; simp)]
      exact ⟨_, rfl⟩
    · by_cases hka : (LAYER_TYPES.lookup (unwrapLayer a).kindName).isSome
      · by_cases haa : (ACTIVATION_TYPES.lookup (unwrapLayer a).activationName).isSome
        · rw [if_pos hka, if_pos haa]
          exact ih (n + 1) ⟨l, hl', hk, ha⟩
        · rw [if_pos hka, if_neg haa]
          exact ⟨_, rfl⟩
      · rw [if_neg hka]
        exact ih n ⟨l, hl', hk, ha⟩

/-- The validation pass ignores a layer of unlisted kind wherever it sits. -/
lemma checkPass_skip {α : Type} (l : KLayer α)
    (hl : LAYER_TYPES.lookup (unwrapLayer l).kindName = none) :
    ∀ (pre post : List (KLayer α)) (n : Nat),
      checkPass (pre ++ l :: post) n = checkPass (pre ++ post) n := by
  intro pre
  induction pre with
  | nil =>
    intro post n
    simp only [List.nil_append, checkPass]
    rw [if_neg (by rw [hl]; simp)]
  | cons p pre' ih =>
    intro post n
    simp only [List.cons_append, checkPass]
    split_ifs
    · exact ih post (n + 1)
    · rfl
    · exact ih post n

/-- The writing pass likewise ignores a layer of unlisted kind. -/
lemma writeLayers_skip {α : Type} (l : KLayer α)
    (hl : LAYER_TYPES.lookup (unwrapLayer l).kindName = none) :
    ∀ (pre post : List (KLayer α)),
      writeLayers (pre ++ l :: post) = writeLayers (pre ++ post) := by
  intro pre
  induction pre with
  | nil =>
    intro post
    simp only [List.nil_append, writeLayers]
    rw [hl]
  | cons p pre' ih =>
    intro post
    simp only [List.cons_append, writeLayers]
    cases LAYER_TYPES.lookup (unwrapLayer p).kindName with
    | none => exact ih post
    | some code =>
      cases ACTIVATION_TYPES.lookup (unwrapLayer p).activationName with
      | none => rfl
      | some acode =>
        show Except.map _ (writeLayers (pre' ++ l :: post)) =
          Except.map _ (writeLayers (pre' ++ post))
        rw [ih post]

/-- C4 as amended: a layer of supported (unwrapped) kind whose activation is
outside the activation table makes `save_model` raise — and the raise comes
from the validation pass, which runs before the destination file is opened,
so no file (truncated or otherwise) is produced; whereas a layer whose
unwrapped kind is outside the layer table is silently skipped: removing it
from the model leaves the export outcome bit-for-bit unchanged. -/
theorem save_model_unsupported (α : Type) :
    (∀ (layers : List (KLayer α)),
      (∃ l ∈ layers, (LAYER_TYPES.lookup (unwrapLayer l).kindName).isSome ∧
        ACTIVATION_TYPES.lookup (unwrapLayer l).activationName = none) →
      ∃ e, save_model layers = Except.error e) ∧
    (∀ (pre post : List (KLayer α)) (l : KLayer α),
      LAYER_TYPES.lookup (unwrapLayer l).kindName = none →
      save_model (pre ++ l :: post) = save_model (pre ++ post)) := by
  constructor
  · intro layers hbad
    obtain ⟨e, he⟩ := checkPass_error layers 0 hbad
    refine ⟨e, ?_⟩
    simp only [save_model]
    rw [he]
  · intro pre post l hl
    simp only [save_model]
    rw [checkPass_skip l hl pre post 0, writeLayers_skip l hl pre post]

/-- Witness for the amended C4: `softmaxLayer` (supported kind, unlisted
activation) makes export raise; dropping the skipped `dropoutLayer` from a
model leaves the export unchanged. -/
theorem save_model_unsupported_witness :
    (∃ e, save_model [softmaxLayer] = Except.error e) ∧
    save_model ([] ++ dropoutLayer :: [denseLayer]) =
      save_model ([] ++ [denseLayer]) :=
  ⟨(save_model_unsupported ℚ).1 [softmaxLayer]
      ⟨softmaxLayer, List.mem_singleton_self softmaxLayer, rfl, rfl⟩,
    (save_model_unsupported ℚ).2 [] [denseLayer] dropoutLayer rfl⟩

/-- C4 counterexample: a model whose only layer's kind (`Dropout`) is
outside the layer table does NOT make `save_model` raise — the layer is
silently skipped and a file is happily written, consisting of the single
word `num_layers = 0`. -/
theorem save_model_skips_unknown_kind :
    save_model [dropoutLayer] = Except.ok [FileWord.i 0] := rfl

end FingerTracking
